import Mathlib

/-!
Shallow embedding of `src/seller.py`: the stock/price synchronisation
pipeline of the seller-apis repository. Spreadsheet rows become
`InventoryRecord`s, the two reconciliation passes (`create_stocks`,
`create_prices`), the price normaliser (`price_conversion`), the batch
chunker (`divide`) and the chunked upload loop (`upload_stocks`) are
translated directly from the Python source. Python exceptions are
modelled with `Option`/`Except`; the list mutation performed by
`offer_ids.remove` is made explicit by threading the offer-id list
through the loops. External collaborators (the HTTP transport, the
pandas spreadsheet parser, the filesystem) are abstracted as explicit
parameters or state components.
-/

/-- One parsed spreadsheet row (`watch_remnants` element): the fields
`kod`, `kolichestvo`, `tsena` model the Russian-named columns
"Код" (product code), "Количество" (quantity) and "Цена" (raw price).
The Python code applies `str(...)` to the cell values; the fields are
modelled as the resulting strings. -/
structure InventoryRecord where
  kod : String
  kolichestvo : String
  tsena : String
deriving DecidableEq

/-- A stock-update entry `{"offer_id": ..., "stock": ...}` built by
`create_stocks` (src/seller.py line 222/226). -/
structure StockEntry where
  offer_id : String
  stock : Int
deriving DecidableEq

/-- A price-update entry built by `create_prices`
(src/seller.py lines 255-261). -/
structure PriceEntry where
  auto_action_enabled : String
  currency_code : String
  offer_id : String
  old_price : String
  price : String
deriving DecidableEq

/-- Decimal value of a non-empty all-ASCII-digit character list;
`none` otherwise. Building block for the model of Python `int(...)`. -/
def pyDigits (ds : List Char) : Option Nat :=
  if ds = [] then none
  else if ds.all Char.isDigit then
    some (ds.foldl (fun a c => a * 10 + (c.toNat - '0'.toNat)) 0)
  else none

/-- Python's `int(...)` applied to a string cell value: an optional
sign followed by ASCII digits parses to the signed value, anything
else raises `ValueError` (`none`). (CPython also tolerates surrounding
whitespace, underscores between digits and non-ASCII decimal digits;
the quantity strings this program feeds to `int` are plain ASCII
numerals, so those cases are out of scope of the model.) -/
def pyInt (s : String) : Option Int :=
  match s.data with
  | '-' :: ds => (pyDigits ds).map (fun n => -(n : Int))
  | '+' :: ds => (pyDigits ds).map (fun n => (n : Int))
  | ds => (pyDigits ds).map (fun n => (n : Int))

/-- The quantity-code mapping inlined in `create_stocks`
(src/seller.py lines 215-221): `">10"` maps to 100, the sentinel `"1"`
maps to 0, anything else goes through Python's `int(...)`, which raises
on non-numeric input — modelled by `pyInt` returning `none`. -/
def quantityToStock (count : String) : Option Int :=
  if count = ">10" then some 100
  else if count = "1" then some 0
  else pyInt count

/-- The first loop of `create_stocks` (src/seller.py lines 213-223),
with the destructive `offer_ids.remove(...)` made explicit: the state is
the accumulated `stocks` list together with the current `offer_ids`
list, and `List.erase` removes the first occurrence exactly as Python's
`list.remove` does. Returns `none` when `int(...)` raises. -/
def create_stocks_aux :
    List InventoryRecord → List String → List StockEntry →
    Option (List StockEntry × List String)
  | [], offer_ids, stocks => some (stocks, offer_ids)
  | w :: ws, offer_ids, stocks =>
    if w.kod ∈ offer_ids then
      match quantityToStock w.kolichestvo with
      | none => none
      | some s =>
          create_stocks_aux ws (offer_ids.erase w.kod)
            (stocks ++ [{ offer_id := w.kod, stock := s }])
    else
      create_stocks_aux ws offer_ids stocks

/-- `create_stocks(watch_remnants, offer_ids)` (src/seller.py lines
189-227): run the matching loop, then append a zero-stock entry for
every offer id left in the (mutated) working list. -/
def create_stocks (watch_remnants : List InventoryRecord)
    (offer_ids : List String) : Option (List StockEntry) :=
  match create_stocks_aux watch_remnants offer_ids [] with
  | none => none
  | some (stocks, remaining) =>
      some (stocks ++ remaining.map fun o => { offer_id := o, stock := 0 })

/-- Python's `price.split(".")` on an exploded string: splits a char
list at every `'.'`, always returning at least one (possibly empty)
piece. -/
def pySplitDot : List Char → List (List Char)
  | [] => [[]]
  | c :: cs =>
    if c = '.' then [] :: pySplitDot cs
    else (c :: (pySplitDot cs).headD []) :: (pySplitDot cs).tail

/-- `price_conversion(price)` (src/seller.py line 287):
`re.sub("[^0-9]", "", price.split(".")[0])` — keep the piece before the
first `'.'` and strip every character that is not an ASCII digit. -/
def price_conversion (price : String) : String :=
  String.mk (((pySplitDot price.data).headD []).filter Char.isDigit)

/-- The spec's own description of the price normaliser (spec §4.4),
written from its words, for comparison with `price_conversion`: "the
prefix before the first `.`, with every character that is not an ASCII
digit removed". -/
def specNormalize (price : String) : String :=
  String.mk ((price.data.takeWhile (fun c => c ≠ '.')).filter Char.isDigit)

/-- The body of `create_prices` loop (src/seller.py lines 253-262) in
state-passing form: the `offer_ids` list is threaded through every
iteration so that any mutation would be visible in the second component
(the loop performs none — there is no `remove` in the price pass). -/
def create_prices_loop :
    List InventoryRecord → List String → List PriceEntry × List String
  | [], offer_ids => ([], offer_ids)
  | w :: ws, offer_ids =>
    if w.kod ∈ offer_ids then
      let rest := create_prices_loop ws offer_ids
      ({ auto_action_enabled := "UNKNOWN", currency_code := "RUB",
         offer_id := w.kod, old_price := "0",
         price := price_conversion w.tsena } :: rest.1, rest.2)
    else
      create_prices_loop ws offer_ids

/-- `create_prices(watch_remnants, offer_ids)` (src/seller.py lines
230-263): the list of price entries built by the loop. -/
def create_prices (watch_remnants : List InventoryRecord)
    (offer_ids : List String) : List PriceEntry :=
  (create_prices_loop watch_remnants offer_ids).1

/-- Successive slices `lst[i : i+n]` for `i = 0, n, 2n, ...` taken by the
loop body of `divide` (src/seller.py lines 312-313) when the step is
positive: `(x :: xs).take n` is the slice and `xs.drop (n-1)` is
`(x :: xs).drop n`, the rest of the list (for `n ≥ 1`). The extra
`fuel` argument only makes the recursion structural: each step consumes
at least one list element, so with `fuel` at least the list length the
fuel never runs out before the list does. -/
def divideChunksGo (n : Nat) : Nat → List α → List (List α)
  | _, [] => []
  | 0, _ :: _ => []
  | fuel + 1, x :: xs =>
      ((x :: xs).take n) :: divideChunksGo n fuel (xs.drop (n - 1))

/-- All slices `lst[i : i+n]`, `i = 0, n, 2n, ... < len(lst)`, for a
positive step `n`. -/
def divideChunks (n : Nat) (l : List α) : List (List α) :=
  divideChunksGo n l.length l

/-- `divide(lst, n)` (src/seller.py lines 290-313), forced to a list as
the callers do with `list(divide(...))`. `range(0, len(lst), 0)` raises
`ValueError` (modelled by `none`); a negative step makes
`range(0, len(lst), n)` empty, so the generator yields nothing; a
positive step yields the successive slices. -/
def divide (lst : List α) (n : Int) : Option (List (List α)) :=
  if n = 0 then none
  else if n < 0 then some []
  else some (divideChunks n.toNat lst)

/-- A non-2xx response from a marketplace endpoint:
`response.raise_for_status()` raises `requests.HTTPError`
(spec name `RemoteApiError`). -/
inductive RemoteApiError where
  | remote
deriving DecidableEq

/-- `update_stocks(stocks, client_id, seller_token)` (src/seller.py
lines 121-151) with the HTTP transport abstracted as the oracle
`respond`: `respond stocks = true` models a 2xx response, in which case
the call returns normally; otherwise `raise_for_status()` raises. -/
def update_stocks (respond : List StockEntry → Bool)
    (stocks : List StockEntry) : Except RemoteApiError Unit :=
  if respond stocks then Except.ok () else Except.error RemoteApiError.remote

/-- The chunked upload loop of `upload_stocks` (src/seller.py lines
371-372): `for some_stock in list(divide(stocks, 100)):
update_stocks(some_stock, ...)`. Returns the trace of chunks actually
sent (in order) and the final outcome; an exception from
`update_stocks` aborts the loop, so later chunks are never sent. -/
def push_stock_chunks (respond : List StockEntry → Bool) :
    List (List StockEntry) →
    List (List StockEntry) × Except RemoteApiError Unit
  | [] => ([], Except.ok ())
  | c :: cs =>
    match update_stocks respond c with
    | Except.error e => ([c], Except.error e)
    | Except.ok _ =>
        let rest := push_stock_chunks respond cs
        (c :: rest.1, rest.2)

/-- `upload_stocks(watch_remnants, client_id, seller_token)`
(src/seller.py lines 346-374), with the directory fetch result passed
in as `offer_ids` and the transport abstracted as `respond`. On success
it returns the pair `(not_empty, stocks)` as the source does; a raised
exception (from `int(...)` in `create_stocks` or from a failed push) is
the error case. The first component is always the trace of chunks
sent. -/
def upload_stocks (respond : List StockEntry → Bool)
    (watch_remnants : List InventoryRecord) (offer_ids : List String) :
    Option (List (List StockEntry) ×
      Except RemoteApiError (List StockEntry × List StockEntry)) :=
  match create_stocks watch_remnants offer_ids with
  | none => none
  | some stocks =>
    match divide stocks 100 with
    | none => none
    | some chunks =>
      let pushed := push_stock_chunks respond chunks
      match pushed.2 with
      | Except.error e => some (pushed.1, Except.error e)
      | Except.ok _ =>
          some (pushed.1,
            Except.ok (stocks.filter (fun s => s.stock ≠ 0), stocks))

/-- `download_stock()` (src/seller.py lines 154-186) with the external
pieces abstracted: the downloaded archive always extracts `ostatki.xls`
into the working directory, and the pandas parse result is the
parameter `parse_result` (`none` models `pd.read_excel` raising). The
second component of the result tells whether `ostatki.xls` still exists
on disk when the routine exits (normally or by exception): `extractall`
creates it, and `os.remove` runs only on the straight-line path after a
successful parse — there is no try/finally. -/
def download_stock (parse_result : Option (List InventoryRecord)) :
    Option (List InventoryRecord) × Bool :=
  match parse_result with
  | none => (none, true)
  | some recs => (some recs, false)

/-! ## Helper lemmas -/

theorem pySplitDot_headD (l : List Char) :
    (pySplitDot l).headD [] = l.takeWhile (fun c => c ≠ '.') := by
  induction l with
  | nil => rfl
  | cons c cs ih =>
    by_cases h : c = '.'
    · subst h
      simp [pySplitDot, List.takeWhile]
    · rw [pySplitDot, if_neg h, List.headD_cons, ih]
      simp [List.takeWhile_cons, h]

theorem create_stocks_aux_perm (ws : List InventoryRecord) :
    ∀ (os : List String) (acc stocks : List StockEntry) (rem : List String),
      create_stocks_aux ws os acc = some (stocks, rem) →
      (stocks.map StockEntry.offer_id ++ rem).Perm
        (acc.map StockEntry.offer_id ++ os) := by
  induction ws with
  | nil =>
    intro os acc stocks rem h
    simp only [create_stocks_aux, Option.some.injEq, Prod.mk.injEq] at h
    obtain ⟨rfl, rfl⟩ := h
    exact List.Perm.refl _
  | cons w ws ih =>
    intro os acc stocks rem h
    by_cases hmem : w.kod ∈ os
    · simp only [create_stocks_aux, if_pos hmem] at h
      cases hq : quantityToStock w.kolichestvo with
      | none => rw [hq] at h; exact absurd h (by simp)
      | some s =>
        rw [hq] at h
        have hperm := ih (os.erase w.kod)
          (acc ++ [{ offer_id := w.kod, stock := s }]) stocks rem h
        rw [List.map_append] at hperm
        simp only [List.map_cons, List.map_nil] at hperm
        refine hperm.trans ?_
        rw [List.append_assoc]
        exact List.Perm.append_left _
          (by simpa using (List.perm_cons_erase hmem).symm)
    · simp only [create_stocks_aux, if_neg hmem] at h
      exact ih os acc stocks rem h

theorem create_stocks_aux_unmatched (ws : List InventoryRecord) :
    ∀ (os : List String) (acc stocks : List StockEntry) (rem : List String)
      (o : String),
      create_stocks_aux ws os acc = some (stocks, rem) →
      o ∈ os → (∀ w ∈ ws, w.kod ≠ o) → o ∈ rem := by
  induction ws with
  | nil =>
    intro os acc stocks rem o h ho _
    simp only [create_stocks_aux, Option.some.injEq, Prod.mk.injEq] at h
    obtain ⟨rfl, rfl⟩ := h
    exact ho
  | cons w ws ih =>
    intro os acc stocks rem o h ho hno
    by_cases hmem : w.kod ∈ os
    · simp only [create_stocks_aux, if_pos hmem] at h
      cases hq : quantityToStock w.kolichestvo with
      | none => rw [hq] at h; exact absurd h (by simp)
      | some s =>
        rw [hq] at h
        refine ih (os.erase w.kod) _ stocks rem o h ?_
          (fun v hv => hno v (List.mem_cons_of_mem w hv))
        exact (List.mem_erase_of_ne
          (fun he => hno w (List.mem_cons_self w ws) he.symm)).2 ho
    · simp only [create_stocks_aux, if_neg hmem] at h
      exact ih os acc stocks rem o h ho
        (fun v hv => hno v (List.mem_cons_of_mem w hv))

theorem create_prices_loop_mem (ws : List InventoryRecord) :
    ∀ (os : List String) (p : PriceEntry),
      p ∈ (create_prices_loop ws os).1 →
      ∃ w, w ∈ ws ∧ w.kod ∈ os ∧
        p = { auto_action_enabled := "UNKNOWN", currency_code := "RUB",
              offer_id := w.kod, old_price := "0",
              price := price_conversion w.tsena } := by
  induction ws with
  | nil => intro os p hp; exact absurd hp (by simp [create_prices_loop])
  | cons w ws ih =>
    intro os p hp
    by_cases hmem : w.kod ∈ os
    · simp only [create_prices_loop, if_pos hmem, List.mem_cons] at hp
      rcases hp with hp | hp
      · exact ⟨w, List.mem_cons_self w ws, hmem, hp⟩
      · obtain ⟨v, hv, hvm, rfl⟩ := ih os p hp
        exact ⟨v, List.mem_cons_of_mem w hv, hvm, rfl⟩
    · simp only [create_prices_loop, if_neg hmem] at hp
      obtain ⟨v, hv, hvm, rfl⟩ := ih os p hp
      exact ⟨v, List.mem_cons_of_mem w hv, hvm, rfl⟩

/-! ## Claims -/

/-- C2: the quantity mapping inlined in `create_stocks` is total and
deterministic: `">10"` maps to 100, the minimal-stock sentinel `"1"`
maps to 0, any other numeric string maps to its integer value, and a
non-numeric non-sentinel quantity is a hard error (`none`, Python's
`int` raising `ValueError`); a matched record's stock value is exactly
this mapping applied to its quantity string. -/
theorem quantity_code_mapping :
    quantityToStock ">10" = some 100 ∧
    quantityToStock "1" = some 0 ∧
    quantityToStock "7" = some 7 ∧
    quantityToStock "нет" = none ∧
    (∀ q : String, q ≠ ">10" → q ≠ "1" → quantityToStock q = pyInt q) ∧
    (∀ kod q : String,
      create_stocks [{ kod := kod, kolichestvo := q, tsena := "" }] [kod] =
        (quantityToStock q).map
          (fun v => [{ offer_id := kod, stock := v }])) := by
  refine ⟨rfl, rfl, rfl, rfl, ?_, ?_⟩
  · intro q h1 h2
    simp [quantityToStock, h1, h2]
  · intro kod q
    simp only [create_stocks, create_stocks_aux, List.mem_cons,
      List.not_mem_nil, or_false, if_pos rfl]
    cases hq : quantityToStock q with
    | none => simp
    | some s => simp [List.erase_cons_head, create_stocks_aux]

/-- C2 witness: instantiating the general conjuncts at the concrete
quantity string "5" and code "A". -/
theorem quantity_code_mapping_witness :
    quantityToStock "5" = pyInt "5" ∧
    create_stocks [{ kod := "A", kolichestvo := "5", tsena := "" }] ["A"] =
      some [{ offer_id := "A", stock := 5 }] := by
  constructor
  · exact quantity_code_mapping.2.2.2.2.1 "5" (by decide) (by decide)
  · rw [quantity_code_mapping.2.2.2.2.2 "A" "5"]; rfl

/-- C3: `price_conversion` keeps the prefix of its input before the
first `'.'` and removes every character that is not an ASCII digit;
in particular "5'990.00 руб." becomes "5990", "нет.цены" becomes the
empty string (accepted, not an error), and "123" with no dot is kept
whole. -/
theorem price_conversion_matches_spec :
    (∀ s : String, price_conversion s = specNormalize s) ∧
    price_conversion "5'990.00 руб." = "5990" ∧
    price_conversion "нет.цены" = "" ∧
    price_conversion "123" = "123" := by
  refine ⟨?_, rfl, rfl, rfl⟩
  intro s
  unfold price_conversion specNormalize
  rw [pySplitDot_headD]

/-- C8: the price pass never mutates the offer-id list: the threaded
`offer_ids` state comes out of `create_prices_loop` exactly as it went
in, for every input — in contrast with the stock pass, whose loop
consumes a matched offer id (second conjunct: on a one-record, one-id
input the working list comes back empty). -/
theorem create_prices_preserves_offer_ids :
    (∀ (R : List InventoryRecord) (O : List String),
      (create_prices_loop R O).2 = O) ∧
    create_stocks_aux [{ kod := "A", kolichestvo := "5", tsena := "" }]
      ["A"] [] = some ([{ offer_id := "A", stock := 5 }], []) := by
  refine ⟨?_, rfl⟩
  intro R O
  induction R with
  | nil => rfl
  | cons w ws ih =>
    by_cases h : w.kod ∈ O
    · simp only [create_prices_loop, if_pos h]
      cases hq : quantityToStock w.kolichestvo <;> exact ih
    · simp only [create_prices_loop, if_neg h]
      exact ih

/-- C9: the code does NOT delete the temporary spreadsheet on the
parse-failure exit path: `os.remove` sits after `pd.read_excel` with no
try/finally, so when parsing raises, `ostatki.xls` remains on disk
(second component `true`); it is removed only on the successful path. -/
theorem download_stock_leaks_on_parse_failure :
    (download_stock none).2 = true ∧
    (download_stock (some [])).2 = false :=
  ⟨rfl, rfl⟩

/-- C1: when the offer-id list is duplicate-free, a successful
`create_stocks` run yields exactly one entry per offer id — the output
length equals the offer-id count, and the multiset of emitted offer ids
is exactly the input offer-id list (each matched record consumes its
offer id, so a duplicate code in the records cannot produce a second
entry, and every unmatched offer id contributes its zero-stock
entry). -/
theorem create_stocks_one_entry_per_offer
    (R : List InventoryRecord) (O : List String) (l : List StockEntry)
    (_hnd : O.Nodup) (h : create_stocks R O = some l) :
    l.length = O.length ∧ (l.map StockEntry.offer_id).Perm O := by
  unfold create_stocks at h
  cases haux : create_stocks_aux R O [] with
  | none => rw [haux] at h; exact absurd h (by simp)
  | some p =>
    obtain ⟨stocks, rem⟩ := p
    rw [haux] at h
    simp only [Option.some.injEq] at h
    subst h
    have hperm := create_stocks_aux_perm R O [] stocks rem haux
    simp only [List.map_nil, List.nil_append] at hperm
    have hid : List.map (StockEntry.offer_id ∘ fun o =>
        ({ offer_id := o, stock := 0 } : StockEntry)) rem = rem :=
      List.map_id rem
    have hmap : ((stocks ++ rem.map fun o =>
        ({ offer_id := o, stock := 0 } : StockEntry)).map
          StockEntry.offer_id) = stocks.map StockEntry.offer_id ++ rem := by
      rw [List.map_append, List.map_map, hid]
    have hfull : (((stocks ++ rem.map fun o =>
        ({ offer_id := o, stock := 0 } : StockEntry)).map
          StockEntry.offer_id)).Perm O := by
      rw [hmap]; exact hperm
    exact ⟨by simpa using hfull.length_eq, hfull⟩

/-- C1 witness: two records sharing the code "A" against the
duplicate-free offer-id list ["A", "B"]: the first record wins, "B" is
zero-filled, and the output has one entry per offer id. -/
theorem create_stocks_one_entry_per_offer_witness :
    (["A", "B"] : List String).Nodup ∧
    create_stocks
      [{ kod := "A", kolichestvo := "5", tsena := "" },
       { kod := "A", kolichestvo := "7", tsena := "" }] ["A", "B"] =
      some [{ offer_id := "A", stock := 5 }, { offer_id := "B", stock := 0 }] ∧
    (([{ offer_id := "A", stock := 5 },
       { offer_id := "B", stock := 0 }] : List StockEntry).length =
        (["A", "B"] : List String).length ∧
     (([{ offer_id := "A", stock := 5 },
        { offer_id := "B", stock := 0 }] : List StockEntry).map
          StockEntry.offer_id).Perm ["A", "B"]) :=
  ⟨by decide, rfl,
   create_stocks_one_entry_per_offer
     [{ kod := "A", kolichestvo := "5", tsena := "" },
      { kod := "A", kolichestvo := "7", tsena := "" }] ["A", "B"]
     [{ offer_id := "A", stock := 5 }, { offer_id := "B", stock := 0 }]
     (by decide) rfl⟩

/-- C4: an offer id present in the working list but absent from the
record codes gets a zero-stock entry from `create_stocks`, while
`create_prices` emits no entry at all for it (the asymmetric zero-fill:
stocks are backfilled, prices are not). -/
theorem unmatched_offer_id_asymmetry
    (R : List InventoryRecord) (O : List String) (o : String)
    (l : List StockEntry) (ho : o ∈ O) (hno : ∀ w ∈ R, w.kod ≠ o)
    (h : create_stocks R O = some l) :
    ({ offer_id := o, stock := 0 } : StockEntry) ∈ l ∧
    ∀ p ∈ create_prices R O, p.offer_id ≠ o := by
  constructor
  · unfold create_stocks at h
    cases haux : create_stocks_aux R O [] with
    | none => rw [haux] at h; exact absurd h (by simp)
    | some pr =>
      obtain ⟨stocks, rem⟩ := pr
      rw [haux] at h
      simp only [Option.some.injEq] at h
      subst h
      have hrem : o ∈ rem :=
        create_stocks_aux_unmatched R O [] stocks rem o haux ho hno
      exact List.mem_append_right _ (List.mem_map.2 ⟨o, hrem, rfl⟩)
  · intro p hp
    obtain ⟨w, hw, _, rfl⟩ := create_prices_loop_mem R O p hp
    exact hno w hw

/-- C4 witness: offer id "C" is in the list but matches no record; it
gets the zero-stock entry and no price entry. -/
theorem unmatched_offer_id_asymmetry_witness :
    ("C" : String) ∈ (["A", "C"] : List String) ∧
    (∀ w ∈ [({ kod := "A", kolichestvo := "5", tsena := "9.99" } :
        InventoryRecord)], w.kod ≠ "C") ∧
    (({ offer_id := "C", stock := 0 } : StockEntry) ∈
        [({ offer_id := "A", stock := 5 } : StockEntry),
         { offer_id := "C", stock := 0 }] ∧
     ∀ p ∈ create_prices
        [{ kod := "A", kolichestvo := "5", tsena := "9.99" }] ["A", "C"],
        p.offer_id ≠ "C") :=
  ⟨by decide, by decide,
   unmatched_offer_id_asymmetry
     [{ kod := "A", kolichestvo := "5", tsena := "9.99" }] ["A", "C"] "C"
     [{ offer_id := "A", stock := 5 }, { offer_id := "C", stock := 0 }]
     (by decide) (by decide) rfl⟩

theorem divideChunksGo_flatten (m : Nat) :
    ∀ (fuel : Nat) (l : List α), l.length ≤ fuel →
      (divideChunksGo (m + 1) fuel l).flatten = l := by
  intro fuel
  induction fuel with
  | zero =>
    intro l hl
    have : l = [] := List.length_eq_zero.1 (Nat.le_zero.1 hl)
    subst this
    rfl
  | succ fuel ih =>
    intro l hl
    match l with
    | [] => rfl
    | x :: xs =>
      rw [divideChunksGo]
      simp only [Nat.add_sub_cancel]
      have hlen : (xs.drop m).length ≤ fuel := by
        simp only [List.length_drop]
        simp only [List.length_cons] at hl
        omega
      rw [List.flatten_cons, ih (xs.drop m) hlen]
      have hdrop : xs.drop m = (x :: xs).drop (m + 1) := rfl
      rw [hdrop, List.take_append_drop]

theorem divideChunksGo_dropLast_length (m : Nat) :
    ∀ (fuel : Nat) (l : List α),
      ∀ c ∈ (divideChunksGo (m + 1) fuel l).dropLast, c.length = m + 1 := by
  intro fuel
  induction fuel with
  | zero =>
    intro l c hc
    cases l <;> simp [divideChunksGo] at hc
  | succ fuel ih =>
    intro l c hc
    match l with
    | [] => simp [divideChunksGo] at hc
    | x :: xs =>
      rw [divideChunksGo] at hc
      simp only [Nat.add_sub_cancel] at hc
      cases hrest : divideChunksGo (m + 1) fuel (xs.drop m) with
      | nil => rw [hrest] at hc; simp at hc
      | cons r rs =>
        rw [hrest] at hc
        rw [List.dropLast_cons_of_ne_nil (by simp), List.mem_cons] at hc
        rcases hc with hc | hc
        · subst hc
          have hne : xs.drop m ≠ [] := by
            intro hnil
            rw [hnil] at hrest
            cases fuel <;> simp [divideChunksGo] at hrest
          have hlen : m < xs.length := by
            by_contra hge
            exact hne (List.drop_eq_nil_of_le (by omega))
          simp only [List.length_take, List.length_cons]
          omega
        · rw [← hrest] at hc
          exact ih (xs.drop m) c hc

/-- C5: for a positive chunk size, the chunks yielded by `divide`
concatenate back to the input list, and every chunk except possibly the
last has length exactly `n`. -/
theorem divide_chunks_reconstruct (L : List α) (n : Nat)
    (cs : List (List α)) (hn : 0 < n) (h : divide L (n : Int) = some cs) :
    cs.flatten = L ∧ ∀ c ∈ cs.dropLast, c.length = n := by
  obtain ⟨m, rfl⟩ : ∃ m, n = m + 1 := ⟨n - 1, by omega⟩
  have h1 : ((m + 1 : Nat) : Int) ≠ 0 := by omega
  have h2 : ¬((m + 1 : Nat) : Int) < 0 := by omega
  rw [divide, if_neg h1, if_neg h2, Option.some.injEq] at h
  subst h
  rw [Int.toNat_natCast]
  exact ⟨divideChunksGo_flatten m L.length L (le_refl _),
    divideChunksGo_dropLast_length m L.length L⟩

/-- C5 witness: splitting a five-element list into chunks of two. -/
theorem divide_chunks_reconstruct_witness :
    0 < 2 ∧
    divide ([1, 2, 3, 4, 5] : List Nat) ((2 : Nat) : Int) =
      some [[1, 2], [3, 4], [5]] ∧
    (([[1, 2], [3, 4], [5]] : List (List Nat)).flatten = [1, 2, 3, 4, 5] ∧
     ∀ c ∈ ([[1, 2], [3, 4], [5]] : List (List Nat)).dropLast,
       c.length = 2) :=
  ⟨by decide, rfl,
   divide_chunks_reconstruct [1, 2, 3, 4, 5] 2 [[1, 2], [3, 4], [5]]
     (by decide) rfl⟩

/-- C6 counterexample: a negative chunk size does NOT raise: Python's
`range(0, len(lst), -1)` is simply empty, so `divide([1], -1)` yields
no chunks and returns normally — refuting "for every size ≤ 0,
divide fails with InvalidArgument" at size -1. -/
theorem divide_negative_size_no_error :
    (-1 : Int) ≤ 0 ∧
    divide ([1] : List Nat) (-1) = some [] ∧
    divide ([1] : List Nat) (-1) ≠ none :=
  ⟨by decide, rfl, by decide⟩

/-- C6 (amended): `divide(L, 0)` raises `ValueError` (`InvalidArgument`)
for every list L, while a negative size silently yields an empty
sequence of chunks instead of failing. -/
theorem divide_nonpositive_size (L : List α) (n : Int) :
    (n = 0 → divide L n = none) ∧ (n < 0 → divide L n = some []) := by
  constructor
  · intro h; simp [divide, h]
  · intro h
    have h0 : n ≠ 0 := by omega
    simp [divide, h0, h]

/-- C6 witness: size 0 raises; size -2 yields no chunks. -/
theorem divide_nonpositive_size_witness :
    divide ([1, 2, 3] : List Nat) 0 = none ∧
    divide ([1, 2, 3] : List Nat) (-2) = some [] :=
  ⟨(divide_nonpositive_size [1, 2, 3] 0).1 rfl,
   (divide_nonpositive_size [1, 2, 3] (-2)).2 (by decide)⟩

theorem push_stock_chunks_stops (respond : List StockEntry → Bool) :
    ∀ (chunks : List (List StockEntry)) (k : Nat),
      k < chunks.length →
      (∀ i, i < k → respond (chunks.getD i []) = true) →
      respond (chunks.getD k []) = false →
      push_stock_chunks respond chunks =
        (chunks.take (k + 1), Except.error RemoteApiError.remote) := by
  intro chunks
  induction chunks with
  | nil => intro k hk _ _; exact absurd hk (by simp)
  | cons c cs ih =>
    intro k hk hok hfail
    cases k with
    | zero =>
      have hc : respond c = false := hfail
      simp [push_stock_chunks, update_stocks, hc]
    | succ k =>
      have hc : respond c = true := hok 0 (Nat.succ_pos k)
      have hfail' : respond (cs.getD k []) = false := hfail
      have hrest := ih k (by simpa using hk)
        (fun i hi => hok (i + 1) (Nat.succ_lt_succ hi)) hfail'
      simp [push_stock_chunks, update_stocks, hc, hrest]

/-- C7: in `upload_stocks`, chunks are pushed strictly in list order;
when the update endpoint answers non-2xx on chunk k (all earlier chunks
succeeding), the raised `RemoteApiError` aborts the loop: exactly the
first k+1 chunks were sent — every later chunk is never sent — and the
error surfaces to the caller. -/
theorem upload_stocks_failure_stops_chunks
    (respond : List StockEntry → Bool) (R : List InventoryRecord)
    (O : List String) (stocks : List StockEntry)
    (chunks : List (List StockEntry)) (k : Nat)
    (hst : create_stocks R O = some stocks)
    (hch : divide stocks 100 = some chunks)
    (hk : k < chunks.length)
    (hok : ∀ i, i < k → respond (chunks.getD i []) = true)
    (hfail : respond (chunks.getD k []) = false) :
    upload_stocks respond R O =
      some (chunks.take (k + 1), Except.error RemoteApiError.remote) := by
  have hpush := push_stock_chunks_stops respond chunks k hk hok hfail
  simp [upload_stocks, hst, hch, hpush]

/-- C7 witness: a transport that always answers non-2xx: the single
chunk is sent, no success result is produced, and the error
surfaces. -/
theorem upload_stocks_failure_stops_chunks_witness :
    upload_stocks (fun _ => false) [] ["A"] =
      some ([[{ offer_id := "A", stock := 0 }]],
        Except.error RemoteApiError.remote) :=
  upload_stocks_failure_stops_chunks (fun _ => false) [] ["A"]
    [{ offer_id := "A", stock := 0 }] [[{ offer_id := "A", stock := 0 }]] 0
    rfl rfl (by decide) (fun i hi => absurd hi (Nat.not_lt_zero i)) rfl

/-- C10: every entry emitted by `create_prices` carries the constant
fields `currency_code = "RUB"`, `old_price = "0"` and
`auto_action_enabled = "UNKNOWN"`, its `offer_id` is the matched
record's code, and its `price` is `price_conversion` of the record's
raw price string. -/
theorem create_prices_constant_fields
    (R : List InventoryRecord) (O : List String) (p : PriceEntry)
    (hp : p ∈ create_prices R O) :
    p.currency_code = "RUB" ∧ p.old_price = "0" ∧
    p.auto_action_enabled = "UNKNOWN" ∧
    ∃ w, w ∈ R ∧ w.kod ∈ O ∧ p.offer_id = w.kod ∧
      p.price = price_conversion w.tsena := by
  obtain ⟨w, hw, hmem, rfl⟩ := create_prices_loop_mem R O p hp
  exact ⟨rfl, rfl, rfl, w, hw, hmem, rfl, rfl⟩

/-- C10 witness: the single entry produced for the record
("A", "5", "9.99 руб.") has the constant fields and the normalised
price "9". -/
theorem create_prices_constant_fields_witness :
    ({ auto_action_enabled := "UNKNOWN", currency_code := "RUB",
       offer_id := "A", old_price := "0", price := "9" } : PriceEntry) ∈
      create_prices
        [{ kod := "A", kolichestvo := "5", tsena := "9.99 руб." }] ["A"] ∧
    (({ auto_action_enabled := "UNKNOWN", currency_code := "RUB",
        offer_id := "A", old_price := "0",
        price := "9" } : PriceEntry).currency_code = "RUB" ∧
     ({ auto_action_enabled := "UNKNOWN", currency_code := "RUB",
        offer_id := "A", old_price := "0",
        price := "9" } : PriceEntry).old_price = "0" ∧
     ({ auto_action_enabled := "UNKNOWN", currency_code := "RUB",
        offer_id := "A", old_price := "0",
        price := "9" } : PriceEntry).auto_action_enabled = "UNKNOWN" ∧
     ∃ w, w ∈ [({ kod := "A", kolichestvo := "5",
                  tsena := "9.99 руб." } : InventoryRecord)] ∧
       w.kod ∈ (["A"] : List String) ∧
       ({ auto_action_enabled := "UNKNOWN", currency_code := "RUB",
          offer_id := "A", old_price := "0",
          price := "9" } : PriceEntry).offer_id = w.kod ∧
       ({ auto_action_enabled := "UNKNOWN", currency_code := "RUB",
          offer_id := "A", old_price := "0",
          price := "9" } : PriceEntry).price = price_conversion w.tsena) :=
  ⟨by decide,
   create_prices_constant_fields
     [{ kod := "A", kolichestvo := "5", tsena := "9.99 руб." }] ["A"]
     { auto_action_enabled := "UNKNOWN", currency_code := "RUB",
       offer_id := "A", old_price := "0", price := "9" } (by decide)⟩
